import Mathlib

/-!
Verification of the mev-proxy gateway (proxy.go) against its specification.

The Go source is shallowly embedded: pure control flow becomes Lean functions,
Go byte slices become lists of natural numbers (each below 256), the big.Int
gas price becomes Int, JSON values become an inductive type, and operations
whose faulting is at issue (out-of-range indexing, out-of-range string slicing,
failing type assertions) return Option, with none modelling the Go panic.
Network effects (the upstream POST of makeRpcCall, keccak256) enter as explicit
parameters so that the data flow around them stays exactly the flow of the
source.
-/

/-- A decoded JSON value, as produced by encoding/json into interface values. -/
inductive Json where
  | null
  | bool (b : Bool)
  | num (n : Int)
  | str (s : String)
  | arr (elems : List Json)
  | obj (fields : List (String × Json))

/-- The literal "2.0" required in the jsonrpc field. -/
def jsonrpcVersion : String := "2.0"

/-- The content type the source compares against. -/
def appJsonCT : String := "application/json"

/-- RpcReq from proxy.go: params is json.RawMessage, kept as the raw bytes
received on the wire; id is an arbitrary decoded JSON value. -/
structure RpcReq where
  jsonrpc : String
  method : String
  params : List Nat
  id : Json

/-- RpcErr from proxy.go. -/
structure RpcErr where
  code : Int
  message : String
  data : Option Json

/-- RpcResp from proxy.go. -/
structure RpcResp where
  jsonrpc : String
  result : Option Json
  error : Option RpcErr
  id : Json

/-- The outcome of the HTTP POST inside makeRpcCall, supplied as a parameter:
either a transport error, or a reply with some content type and (when the body
decodes as an RpcResp) the decoded body. -/
inductive UpstreamResult where
  | transportErr
  | response (contentType : String) (decoded : Option RpcResp)

/-- The synthetic error response makeRpcCall builds on failure. -/
def upstreamErrResp (id : Json) (msg : String) : RpcResp :=
  ⟨jsonrpcVersion, none, some ⟨-32603, msg, none⟩, id⟩

/-- makeRpcCall from proxy.go: transport failure yields the synthetic
"Upstream unreachable" response; then the content type check (with the
hardcoded bodyLength of 1000000), the body decode, and the jsonrpc version
check each yield the synthetic "Upstream response error" response; otherwise
the decoded upstream body is returned as is. -/
def makeRpcCall (req : RpcReq) (res : UpstreamResult) : RpcResp :=
  match res with
  | UpstreamResult.transportErr => upstreamErrResp req.id ("Upstream unreachable")
  | UpstreamResult.response ct decoded =>
    let bodyLength : Int := 1000000
    if ct ≠ appJsonCT ∨ bodyLength ≤ 0 then
      upstreamErrResp req.id ("Upstream response error")
    else
      match decoded with
      | none => upstreamErrResp req.id ("Upstream response error")
      | some resp =>
        if resp.jsonrpc ≠ jsonrpcVersion then
          upstreamErrResp req.id ("Upstream response error")
        else resp

/-- Go sort.Search: binary search for the least index in [0, n) at which f
holds (n if none). The loop "for i < j" is translated with explicit fuel; the
interval length j - i shrinks at every iteration, so fuel n suffices when the
search starts at i = 0, j = n. -/
def goSearchAux (f : Nat → Bool) : Nat → Nat → Nat → Nat
  | 0, i, _ => i
  | fuel + 1, i, j =>
    if i < j then
      let h := (i + j) / 2
      if f h then goSearchAux f fuel i h
      else goSearchAux f fuel (h + 1) j
    else i

/-- Go sort.Search over the range [0, n). -/
def goSearch (f : Nat → Bool) (n : Nat) : Nat := goSearchAux f n 0 n

/-- Byte-wise lexicographic comparison of character lists, modelling how Go
compares strings. -/
def charsLe : List Char → List Char → Bool
  | [], _ => true
  | _ :: _, [] => false
  | c :: cs, d :: ds =>
    if c.toNat = d.toNat then charsLe cs ds
    else decide (c.toNat < d.toNat)

/-- Go string comparison a <= b. -/
def goLeString (a b : String) : Bool := charsLe a.toList b.toList

/-- Go sort.SearchStrings(a, x) = sort.Search(len(a), fun i => a[i] >= x). -/
def searchStrings (a : List String) (x : String) : Nat :=
  goSearch (fun i => goLeString x (a.getD i (""))) a.length

/-- The whitelist gate of handleRpc: binary-search for addr, then read
whitelist[idx] and compare it with addr. The source does not bounds-check idx,
so when idx = len(whitelist) (addr sorts after every element, in particular
whenever the snapshot is empty) the read faults; that outcome is none. Result
some true models a hit (processing continues); some false models the 400 reply
with empty body. -/
def whitelistGate (wl : List String) (addr : String) : Option Bool :=
  let idx := searchStrings wl addr
  match wl.get? idx with
  | some s => some (decide (s = addr))
  | none => none

/-- fetchWhitelist from proxy.go: each key string is copied verbatim out of the
subgraph response, with no lowercasing, trimming, prefixing or deduplication. -/
def fetchKeys (respKeys : List String) : List String := respKeys.map (fun k => k)

/-- The order used by the publisher when it sorts the fetched keys. -/
def stringLeProp (a b : String) : Prop := goLeString a b = true

instance : DecidableRel stringLeProp :=
  fun a b => inferInstanceAs (Decidable (goLeString a b = true))

/-- The whitelist publisher in ListenAndServe: sort the fetched keys with
sort.Strings and publish the sorted snapshot atomically. Go uses an
unspecified comparison sort; the model uses insertion sort, and the theorems
below use only the permutation property, which any comparison sort has. -/
def publishWhitelist (keys : List String) : List String :=
  (fetchKeys keys).insertionSort stringLeProp

/-- The sixteen lowercase hex digit characters, in value order. -/
def lowerHexDigits : List Char := ("0123456789abcdef").toList

/-- The lowercase hex digit of a value below 16. -/
def hexDigit (n : Nat) : Char := lowerHexDigits.getD n ('?')

/-- One byte rendered as two lowercase hex digits, as fmt %x does. -/
def hexByte (b : Nat) : List Char := [hexDigit (b / 16), hexDigit (b % 16)]

/-- A byte slice rendered as lowercase hex, as fmt %x does. -/
def hexChars (bs : List Nat) : List Char := bs.flatMap hexByte

/-- fmt.Sprintf of 0x%x applied to a byte slice. -/
def renderHex0x (bs : List Nat) : String := String.mk ('0' :: 'x' :: hexChars bs)

/-- Whether a character is a lowercase hex digit. -/
def isLowerHex (c : Char) : Bool := lowerHexDigits.contains c

/-- Whether a string has the exact rendered-address shape: "0x" followed by 40
lowercase hex digits. -/
def isAddrForm (s : String) : Bool :=
  match s.toList with
  | '0' :: 'x' :: rest => decide (rest.length = 40) && rest.all isLowerHex
  | _ => false

/-- The streaming keccak hasher interface used by handleRpc, at the level of
the bytes absorbed: Write appends to the absorbed stream, Sum applies the hash
function (a parameter here) to the absorbed bytes, Reset clears the stream. -/
structure KeccakHasher where
  acc : List Nat

/-- sha3.NewLegacyKeccak256(): a hasher with an empty absorbed stream. -/
def KeccakHasher.new : KeccakHasher := ⟨[]⟩

/-- hasher.Write(bs). -/
def KeccakHasher.write (h : KeccakHasher) (bs : List Nat) : KeccakHasher :=
  ⟨h.acc ++ bs⟩

/-- hasher.Reset(). -/
def KeccakHasher.reset (_h : KeccakHasher) : KeccakHasher := ⟨[]⟩

/-- hasher.Sum(nil), with the hash function supplied as a parameter. -/
def KeccakHasher.sum (keccak : List Nat → List Nat) (h : KeccakHasher) : List Nat :=
  keccak h.acc

/-- The bytes of the signing tag "\x19Bor Signed MEV TxBundle:\n". -/
def borSignedBytes : List Nat :=
  0x19 :: (("Bor Signed MEV TxBundle:\n").toList.map Char.toNat)

/-- The signature section of handleRpc, verbatim: write the tag, write
req.Params (the raw wire bytes), take the sum as msgHash; then reset, write
pubkey[1:], take the sum, drop the first 12 bytes, and render the remainder
with fmt.Sprintf of 0x%x. Yields (msgHash, addr). -/
def deriveSigData (keccak : List Nat → List Nat) (params pubkey : List Nat) :
    List Nat × String :=
  let hasher := KeccakHasher.new
  let hasher := hasher.write borSignedBytes
  let hasher := hasher.write params
  let msgHash := hasher.sum keccak
  let hasher := hasher.reset
  let hasher := hasher.write (pubkey.drop 1)
  let addrBytes := (hasher.sum keccak).drop 12
  (msgHash, renderHex0x addrBytes)

/-- The reference message hash, following the specification text: keccak256 of
the tag bytes concatenated with the params bytes exactly as received. -/
def specMsgHash (keccak : List Nat → List Nat) (params : List Nat) : List Nat :=
  keccak (borSignedBytes ++ params)

/-- The reference address, following the specification text: keccak256 of
bytes 1..65 of the recovered 65-byte public key, keep the last 20 bytes,
render as "0x" followed by 40 lowercase hex digits. -/
def specAddr (keccak : List Nat → List Nat) (pubkey : List Nat) : String :=
  let h := keccak (pubkey.drop 1)
  renderHex0x (h.drop (h.length - 20))

/-- The value of a single hex character, upper or lower case, as accepted by
encoding/hex. -/
def hexCharVal (c : Char) : Option Nat :=
  if ('0' ≤ c ∧ c ≤ '9') then some (c.toNat - ('0').toNat)
  else if ('a' ≤ c ∧ c ≤ 'f') then some (c.toNat - ('a').toNat + 10)
  else if ('A' ≤ c ∧ c ≤ 'F') then some (c.toNat - ('A').toNat + 10)
  else none

/-- encoding/hex DecodeString: pairs of hex characters become bytes; an odd
length or a non-hex character yields an error (none). -/
def goHexDecode : List Char → Option (List Nat)
  | [] => some []
  | [_] => none
  | c1 :: c2 :: rest =>
    match hexCharVal c1, hexCharVal c2, goHexDecode rest with
    | some hi, some lo, some bs => some ((16 * hi + lo) :: bs)
    | _, _, _ => none

/-- Outcome of the signature-header step of handleRpc. -/
inductive SigStepOutcome where
  | panic
  | decodeError
  | decoded (bytes : List Nat)
deriving DecidableEq

/-- The signature-header step of handleRpc: take the X-Marlin-Signature header
value (the empty string when the header is absent), slice off its first two
bytes with relaySigStr[2:] — which faults in Go when the value is shorter than
two bytes — and hex-decode the rest; a decode error is answered with HTTP 400
and the body "Signature decode error". -/
def sigStep (header : String) : SigStepOutcome :=
  if header.toList.length < 2 then SigStepOutcome.panic
  else
    match goHexDecode (header.toList.drop 2) with
    | none => SigStepOutcome.decodeError
    | some bs => SigStepOutcome.decoded bs

/-- json.Unmarshal of the params bytes into map[string]interface: succeeds on
a JSON object (and on null, which leaves the map nil, read as empty), errors
on every other JSON value. Stated on the decoded JSON value of the bytes. -/
def goUnmarshalMap : Json → Option (List (String × Json))
  | Json.obj fields => some fields
  | Json.null => some []
  | _ => none

/-- Go map lookup for an object decoded by encoding/json: on duplicate keys
the last member wins. -/
def goMapGet (m : List (String × Json)) (key : String) : Option Json :=
  m.foldl (fun acc kv => if kv.1 = key then some kv.2 else acc) none

/-- The Go type assertion bgp.(string) in its single-result form: it faults
(none) unless the value is a string. -/
def goTypeAssertString : Json → Option String
  | Json.str s => some s
  | _ => none

/-- The numeric value of a list of decimal digit characters. -/
def decDigitsVal (cs : List Char) : Nat :=
  cs.foldl (fun acc c => acc * 10 + (c.toNat - ('0').toNat)) 0

/-- big.Int SetString with base 10: an optional sign, then one or more decimal
digits consuming the whole string; anything else fails. Note the sign: base 10
SetString accepts negative inputs. -/
def bigIntSetString10 (s : String) : Option Int :=
  match s.toList with
  | [] => none
  | c :: rest =>
    let signedDigits : Bool × List Char :=
      if c = '+' then (false, rest)
      else if c = '-' then (true, rest)
      else (false, c :: rest)
    match signedDigits with
    | (neg, digits) =>
      if digits ≠ [] ∧ digits.all Char.isDigit = true then
        some (if neg then -(decDigitsVal digits : Int) else (decDigitsVal digits : Int))
      else none

/-- Outcome of the bundleGasPrice extraction in the eth_sendBundle branch. -/
inductive SendBundleOutcome where
  | panic
  | http400
  | enqueued (price : Int)
deriving DecidableEq

/-- The eth_sendBundle branch of handleRpc after the capacity check: unmarshal
params into a map (failure: 400), look up the bundleGasPrice member (absent:
400), type-assert it to a string — an unchecked assertion that faults on any
non-string member — and parse it with big.Int SetString base 10 (failure:
400); on success the parsed price is enqueued. -/
def extractBundleGasPrice (params : Json) : SendBundleOutcome :=
  match goUnmarshalMap params with
  | none => SendBundleOutcome.http400
  | some m =>
    match goMapGet m ("bundleGasPrice") with
    | none => SendBundleOutcome.http400
    | some bgp =>
      match goTypeAssertString bgp with
      | none => SendBundleOutcome.panic
      | some s =>
        match bigIntSetString10 s with
        | none => SendBundleOutcome.http400
        | some n => SendBundleOutcome.enqueued n

/-- BundleDispatchItem from proxy.go; the big.Int gas price is an Int. -/
structure BundleDispatchItem where
  data : RpcReq
  bundleGasPrice : Int
  retry : Nat

/-- Outcome of the eth_sendBundle branch as a whole. -/
inductive HandlerOutcome where
  | panic
  | http400
  | ok200
deriving DecidableEq

/-- The eth_sendBundle branch of handleRpc after the whitelist gate, with its
queue side effect: under the dispatch lock, first the capacity check (an HTTP
400 silent drop when len equals cap, queue untouched), then the
bundleGasPrice extraction (queue untouched on 400 or fault), then the channel
send of the item with retry 0. paramsVal is the decoded JSON value of
req.params. -/
def handleSendBundle (queue : List BundleDispatchItem) (capacity : Nat)
    (req : RpcReq) (paramsVal : Json) : HandlerOutcome × List BundleDispatchItem :=
  if queue.length = capacity then (HandlerOutcome.http400, queue)
  else
    match extractBundleGasPrice paramsVal with
    | SendBundleOutcome.panic => (HandlerOutcome.panic, queue)
    | SendBundleOutcome.http400 => (HandlerOutcome.http400, queue)
    | SendBundleOutcome.enqueued n => (HandlerOutcome.ok200, queue ++ [⟨req, n, 0⟩])

/-- The dispatch order: a before b when the gas price of b is at most the gas
price of a. sort.Reverse of the BundleDispatchVec Less puts higher prices
first. -/
def bundleGE (a b : BundleDispatchItem) : Prop :=
  b.bundleGasPrice ≤ a.bundleGasPrice

instance : DecidableRel bundleGE :=
  fun a b => Int.decLe b.bundleGasPrice a.bundleGasPrice

instance : IsTotal BundleDispatchItem bundleGE :=
  ⟨fun a b => le_total b.bundleGasPrice a.bundleGasPrice⟩

instance : IsTrans BundleDispatchItem bundleGE :=
  ⟨fun _ _ _ h1 h2 => le_trans h2 h1⟩

/-- sort.Sort(sort.Reverse(bundles)) in epochLoop: the drained vector sorted
descending by bundleGasPrice. Go uses an unspecified, unstable comparison
sort; the model uses insertion sort, and every theorem below that touches the
sort relies only on sortedness and the permutation property, which hold for
any comparison sort. -/
def sortBundles (v : List BundleDispatchItem) : List BundleDispatchItem :=
  v.insertionSort bundleGE

/-- The gather loop of epochLoop: the first bundlesPerEpoch sorted items (all
of them when fewer are pending). -/
def epochSelItems (v : List BundleDispatchItem) (k : Nat) : List BundleDispatchItem :=
  (sortBundles v).take k

/-- selectedBundles in epochLoop: the data fields of the selected items. -/
def epochSelected (v : List BundleDispatchItem) (k : Nat) : List RpcReq :=
  (epochSelItems v k).map (fun b => b.data)

/-- The vector left after the gather loop of epochLoop. -/
def epochRemainder (v : List BundleDispatchItem) (k : Nat) : List BundleDispatchItem :=
  (sortBundles v).drop k

/-- The reinsert loop of epochLoop: items with retry at least maxBundleRetries
are dropped; every other item is sent back with retry + 1 and its data and
bundleGasPrice unchanged, in the order of the remainder vector. -/
def reinsertBundles (rem : List BundleDispatchItem) (maxRetries : Nat) :
    List BundleDispatchItem :=
  rem.filterMap (fun b =>
    if maxRetries ≤ b.retry then none
    else some ⟨b.data, b.bundleGasPrice, b.retry + 1⟩)

/-- The queue contents after one epoch tick that drained the vector v. -/
def epochRequeue (v : List BundleDispatchItem) (k maxRetries : Nat) :
    List BundleDispatchItem :=
  reinsertBundles (epochRemainder v k) maxRetries

/-- handleEthSendBundle applied across sendBundlesToValidator: each selected
request is sent upstream with its method rewritten to "mev_sendBundle". -/
def dispatchBundles (rs : List RpcReq) : List RpcReq :=
  rs.map (fun r => { r with method := "mev_sendBundle" })

/-- The requests an epoch tick sends upstream. -/
def epochDispatch (v : List BundleDispatchItem) (k : Nat) : List RpcReq :=
  dispatchBundles (epochSelected v k)

/-- A concrete bundle request used in concrete instances. -/
def reqA : RpcReq := ⟨jsonrpcVersion, "eth_sendBundle", [0], Json.null⟩

/-- A second concrete bundle request. -/
def reqB : RpcReq := ⟨jsonrpcVersion, "eth_sendBundle", [1], Json.null⟩

/-- A third concrete bundle request. -/
def reqC : RpcReq := ⟨jsonrpcVersion, "eth_sendBundle", [2], Json.null⟩

/-- Claim C8: makeRpcCall returns an RpcResponse for every request and never
fails its caller. Transport failure yields the synthetic response with message
"Upstream unreachable"; a content type mismatch, a body decode failure, and a
jsonrpc version mismatch each yield the synthetic response with message
"Upstream response error"; every synthetic response carries error code -32603
and echoes the request id, the failures being distinguished only by message
text; and on a clean response the upstream body is returned unchanged. -/
theorem makeRpcCall_spec (req : RpcReq) (ct : String) (d : Option RpcResp)
    (resp : RpcResp) :
    makeRpcCall req UpstreamResult.transportErr
      = upstreamErrResp req.id ("Upstream unreachable") ∧
    (ct ≠ appJsonCT →
      makeRpcCall req (UpstreamResult.response ct d)
        = upstreamErrResp req.id ("Upstream response error")) ∧
    makeRpcCall req (UpstreamResult.response appJsonCT none)
      = upstreamErrResp req.id ("Upstream response error") ∧
    (resp.jsonrpc ≠ jsonrpcVersion →
      makeRpcCall req (UpstreamResult.response appJsonCT (some resp))
        = upstreamErrResp req.id ("Upstream response error")) ∧
    (resp.jsonrpc = jsonrpcVersion →
      makeRpcCall req (UpstreamResult.response appJsonCT (some resp)) = resp) ∧
    (∀ msg, (upstreamErrResp req.id msg).error = some ⟨-32603, msg, none⟩ ∧
      (upstreamErrResp req.id msg).id = req.id ∧
      (upstreamErrResp req.id msg).jsonrpc = jsonrpcVersion) := by
  refine ⟨rfl, ?_, ?_, ?_, ?_, fun msg => ⟨rfl, rfl, rfl⟩⟩
  · intro h
    simp [makeRpcCall, h]
  · norm_num [makeRpcCall]
  · intro h
    norm_num [makeRpcCall, h]
  · intro h
    norm_num [makeRpcCall, h]

/-- Witness for makeRpcCall_spec at a concrete request and a concrete
content-type mismatch. -/
theorem makeRpcCall_spec_witness :
    makeRpcCall reqA (UpstreamResult.response ("text/html") none)
      = upstreamErrResp reqA.id ("Upstream response error") :=
  (makeRpcCall_spec reqA ("text/html") none
    ⟨jsonrpcVersion, none, none, Json.null⟩).2.1 (by decide)

/-- Claim C1 (code bug in the source): the whitelist gate of handleRpc.
On an in-range miss the gate answers 400 with empty body and nothing is
enqueued (some false), and an exact hit passes (some true); but on the empty
snapshot, and whenever the recovered address sorts after every snapshot
element, the binary search returns len(whitelist) and the unchecked read
whitelist[idx] faults (none) instead of answering 400. -/
theorem whitelistGate_end_miss_faults :
    whitelistGate [] ("0xaa") = none ∧
    whitelistGate [("0x0a")] ("0xff") = none ∧
    whitelistGate [("0xbb")] ("0xaa") = some false ∧
    whitelistGate [("0xaa"), ("0xcc")] ("0xbb") = some false ∧
    whitelistGate [("0xaa"), ("0xcc")] ("0xcc") = some true := by decide

/-- Claim C6 (code bug in the source): the signature-header step of handleRpc.
With a header of at least two bytes the step slices off the first two bytes
(whatever they are) and hex-decodes the rest, answering 400 "Signature decode
error" on a decode failure; but a missing (empty) or one-byte header faults on
the unchecked slice relaySigStr[2:] before any decoding. -/
theorem sigStep_missing_header_faults :
    sigStep ("") = SigStepOutcome.panic ∧
    sigStep ("0") = SigStepOutcome.panic ∧
    sigStep ("0xzz") = SigStepOutcome.decodeError ∧
    sigStep ("0xabc") = SigStepOutcome.decodeError ∧
    sigStep ("0xAb01") = SigStepOutcome.decoded [171, 1] ∧
    sigStep ("ZZab") = SigStepOutcome.decoded [171] := by decide

/-- Claim C7 (code bug in the source): the bundleGasPrice extraction of the
eth_sendBundle branch. Params that are not a JSON object, an absent member,
and a malformed string member all answer 400, and a decimal string member is
parsed at arbitrary precision and enqueued; but a member that is present and
not a JSON string faults on the unchecked type assertion bgp.(string) instead
of answering 400, and SetString base 10 accepts a sign, so a negative decimal
string is enqueued rather than rejected. -/
theorem extractBundleGasPrice_assertion_faults :
    extractBundleGasPrice (Json.str ("notobject")) = SendBundleOutcome.http400 ∧
    extractBundleGasPrice (Json.obj []) = SendBundleOutcome.http400 ∧
    extractBundleGasPrice (Json.obj [(("bundleGasPrice"), Json.str ("12x"))])
      = SendBundleOutcome.http400 ∧
    extractBundleGasPrice (Json.obj [(("bundleGasPrice"), Json.str (""))])
      = SendBundleOutcome.http400 ∧
    extractBundleGasPrice
        (Json.obj [(("bundleGasPrice"), Json.str ("100000000000000000000"))])
      = SendBundleOutcome.enqueued 100000000000000000000 ∧
    extractBundleGasPrice (Json.obj [(("bundleGasPrice"), Json.num 5)])
      = SendBundleOutcome.panic ∧
    extractBundleGasPrice (Json.obj [(("bundleGasPrice"), Json.str ("-5"))])
      = SendBundleOutcome.enqueued (-5) := by decide

/-- Every value below 16 renders to a lowercase hex digit character. -/
theorem hexDigit_isLowerHex : ∀ n, n < 16 → isLowerHex (hexDigit n) = true := by
  decide

/-- Every byte renders to two lowercase hex digit characters. -/
theorem hexByte_all_isLowerHex (b : Nat) (h : b < 256) :
    (hexByte b).all isLowerHex = true := by
  have h1 : b / 16 < 16 := Nat.div_lt_of_lt_mul (by omega)
  have h2 : b % 16 < 16 := Nat.mod_lt _ (by norm_num)
  simp [hexByte, hexDigit_isLowerHex _ h1, hexDigit_isLowerHex _ h2]

/-- A byte slice renders to lowercase hex digit characters only. -/
theorem hexChars_all_isLowerHex (bs : List Nat) (h : ∀ b ∈ bs, b < 256) :
    (hexChars bs).all isLowerHex = true := by
  induction bs with
  | nil => rfl
  | cons b rest ih =>
    have hb : b < 256 := h b (List.mem_cons_self b rest)
    have hrest : ∀ x ∈ rest, x < 256 := fun x hx => h x (List.mem_cons_of_mem _ hx)
    rw [show hexChars (b :: rest) = hexByte b ++ hexChars rest from rfl, List.all_append]
    simp [hexByte_all_isLowerHex b hb, ih hrest]

/-- The rendered hex of a byte slice has two characters per byte. -/
theorem hexChars_length (bs : List Nat) : (hexChars bs).length = 2 * bs.length := by
  induction bs with
  | nil => rfl
  | cons b rest ih =>
    rw [show hexChars (b :: rest) = hexByte b ++ hexChars rest from rfl]
    simp [hexByte, ih]
    omega

/-- Rendering any 20-byte slice with fmt 0x%x yields exactly the address
shape: "0x" followed by 40 lowercase hex digits. -/
theorem isAddrForm_renderHex0x (bs : List Nat) (hl : bs.length = 20)
    (hb : ∀ b ∈ bs, b < 256) : isAddrForm (renderHex0x bs) = true := by
  have htl : (renderHex0x bs).toList = '0' :: 'x' :: hexChars bs := rfl
  simp only [isAddrForm, htl]
  simp [hexChars_length, hl, hexChars_all_isLowerHex bs hb]

/-- Claim C2: for every decodable request with a recoverable signature, the
ingress authentication computes exactly the reference derivation. The message
hash is keccak256 of the tag bytes "\x19Bor Signed MEV TxBundle:\n" followed
by the params bytes exactly as received (the raw field is hashed, never a
re-serialization), and the sender address is the last 20 bytes of keccak256 of
bytes 1..65 of the recovered public key, rendered as "0x" followed by 40
lowercase hex digits. Stated for every hash function whose digests are 32
bytes, in particular for keccak256. -/
theorem deriveSigData_spec (keccak : List Nat → List Nat) (params pubkey : List Nat)
    (hlen : (keccak (pubkey.drop 1)).length = 32)
    (hbyte : ∀ b ∈ keccak (pubkey.drop 1), b < 256) :
    (deriveSigData keccak params pubkey).1 = specMsgHash keccak params ∧
    (deriveSigData keccak params pubkey).2 = specAddr keccak pubkey ∧
    isAddrForm (deriveSigData keccak params pubkey).2 = true := by
  refine ⟨?_, ?_, ?_⟩
  · simp [deriveSigData, specMsgHash, KeccakHasher.new, KeccakHasher.write,
      KeccakHasher.sum]
  · show renderHex0x ((keccak (pubkey.drop 1)).drop 12)
        = renderHex0x ((keccak (pubkey.drop 1)).drop ((keccak (pubkey.drop 1)).length - 20))
    rw [hlen]
  · have heq : (deriveSigData keccak params pubkey).2
        = renderHex0x ((keccak (pubkey.drop 1)).drop 12) := rfl
    rw [heq]
    refine isAddrForm_renderHex0x _ ?_ ?_
    · rw [List.length_drop, hlen]
    · intro b hbmem
      exact hbyte b (List.mem_of_mem_drop hbmem)

/-- A concrete stand-in digest function with 32-byte output, for witnesses. -/
def keccakW : List Nat → List Nat := fun _ => List.range 32

/-- Witness for deriveSigData_spec at a concrete params, public key and digest
function. -/
theorem deriveSigData_spec_witness :
    (deriveSigData keccakW [1, 2] (List.range 65)).1 = specMsgHash keccakW [1, 2] ∧
    (deriveSigData keccakW [1, 2] (List.range 65)).2 = specAddr keccakW (List.range 65) ∧
    isAddrForm (deriveSigData keccakW [1, 2] (List.range 65)).2 = true :=
  deriveSigData_spec keccakW [1, 2] (List.range 65) (by simp [keccakW])
    (by intro b hb; simp [keccakW, List.mem_range] at hb; omega)

/-- Claim C3: at every epoch tick, after the drained vector is sorted, the
selection consists of min(bundlesPerEpoch, pending) items; for any two pending
bundles a and b with the gas price of a strictly above the gas price of b, a is
selected whenever b is; and every selected request is dispatched upstream with
its method rewritten to "mev_sendBundle" and its other fields unchanged. -/
theorem epochSelection_spec (v : List BundleDispatchItem) (k : Nat) :
    (epochSelItems v k).length = min k v.length ∧
    (∀ a b, a ∈ v → b ∈ v → b.bundleGasPrice < a.bundleGasPrice →
      b ∈ epochSelItems v k → a ∈ epochSelItems v k) ∧
    (∀ r ∈ epochDispatch v k, r.method = "mev_sendBundle") ∧
    (epochDispatch v k).map (fun r => (r.jsonrpc, r.params, r.id))
      = (epochSelected v k).map (fun r => (r.jsonrpc, r.params, r.id)) := by
  have hperm : (sortBundles v).Perm v := List.perm_insertionSort bundleGE v
  have hsorted : List.Pairwise bundleGE (sortBundles v) :=
    List.sorted_insertionSort bundleGE v
  refine ⟨?_, ?_, ?_, ?_⟩
  · rw [epochSelItems, List.length_take, hperm.length_eq]
  · intro a b ha hb hba hbsel
    have hasort : a ∈ (sortBundles v).take k ++ (sortBundles v).drop k := by
      rw [List.take_append_drop]
      exact hperm.mem_iff.mpr ha
    have hsorted2 :
        List.Pairwise bundleGE ((sortBundles v).take k ++ (sortBundles v).drop k) := by
      rw [List.take_append_drop]
      exact hsorted
    rcases List.mem_append.mp hasort with h | h
    · exact h
    · have hcross := (List.pairwise_append.mp hsorted2).2.2 b hbsel a h
      exact absurd hba (not_lt.mpr hcross)
  · intro r hr
    obtain ⟨s, _, rfl⟩ := List.mem_map.mp hr
    rfl
  · rw [epochDispatch, dispatchBundles, List.map_map]
    rfl

/-- The concrete pending vector with arrival order of prices 10, 50, 30. -/
def vW : List BundleDispatchItem := [⟨reqA, 10, 0⟩, ⟨reqB, 50, 0⟩, ⟨reqC, 30, 0⟩]

/-- Witness for epochSelection_spec: with prices 10, 50, 30 and two slots, the
price-30 bundle is selected, so the price-50 bundle is selected too. -/
theorem epochSelection_spec_witness :
    (⟨reqB, 50, 0⟩ : BundleDispatchItem) ∈ epochSelItems vW 2 := by
  have hsel : epochSelItems vW 2 = [⟨reqB, 50, 0⟩, ⟨reqC, 30, 0⟩] := rfl
  refine (epochSelection_spec vW 2).2.1 ⟨reqB, 50, 0⟩ ⟨reqC, 30, 0⟩ ?_ ?_ ?_ ?_
  · exact List.Mem.tail _ (List.Mem.head _)
  · exact List.Mem.tail _ (List.Mem.tail _ (List.Mem.head _))
  · decide
  · rw [hsel]
    exact List.Mem.tail _ (List.Mem.head _)

/-- Claim C4: the reinsert loop of the epoch tick. An item enters the
re-enqueued list exactly when its source item b has retry below
maxBundleRetries, and then as b with retry incremented by one and request and
gas price unchanged — so an item at the retry cap is discarded, never
re-enqueued, retry grows monotonically per logical bundle, and every
re-enqueued item carries retry at most maxBundleRetries (fresh handler
enqueues carry retry 0). -/
theorem reinsertBundles_spec (rem : List BundleDispatchItem) (m : Nat)
    (x : BundleDispatchItem) :
    (x ∈ reinsertBundles rem m ↔
      ∃ b, b ∈ rem ∧ b.retry < m ∧ x = ⟨b.data, b.bundleGasPrice, b.retry + 1⟩) ∧
    (x ∈ reinsertBundles rem m → x.retry ≤ m) := by
  have hchar : x ∈ reinsertBundles rem m ↔
      ∃ b, b ∈ rem ∧ b.retry < m ∧ x = ⟨b.data, b.bundleGasPrice, b.retry + 1⟩ := by
    rw [reinsertBundles, List.mem_filterMap]
    constructor
    · rintro ⟨b, hb, hfb⟩
      by_cases hr : m ≤ b.retry
      · rw [if_pos hr] at hfb
        exact absurd hfb (by simp)
      · rw [if_neg hr] at hfb
        exact ⟨b, hb, by omega, (Option.some_inj.mp hfb).symm⟩
    · rintro ⟨b, hb, hlt, hx⟩
      refine ⟨b, hb, ?_⟩
      rw [if_neg (by omega), hx]
  refine ⟨hchar, ?_⟩
  intro hx
  obtain ⟨b, _, hlt, hxe⟩ := hchar.mp hx
  rw [hxe]
  show b.retry + 1 ≤ m
  omega

/-- Witness for reinsertBundles_spec: a loser with retry 0 under cap 3 is
re-enqueued as the same bundle with retry 1. -/
theorem reinsertBundles_spec_witness :
    (⟨reqA, 10, 1⟩ : BundleDispatchItem) ∈ reinsertBundles [⟨reqA, 10, 0⟩] 3 :=
  (reinsertBundles_spec [⟨reqA, 10, 0⟩] 3 ⟨reqA, 10, 1⟩).1.mpr
    ⟨⟨reqA, 10, 0⟩, List.Mem.head _, by decide, rfl⟩

/-- Claim C5: the queue capacity discipline. When the queue holds exactly
capacity items, a further whitelisted eth_sendBundle submission is answered
HTTP 400 with the queue contents unchanged; a handler step never pushes the
length above capacity; and the epoch tick, including every intermediate point
of its reinsert loop (the prefixes), keeps the length at most capacity. -/
theorem queueCapacity_spec (q : List BundleDispatchItem) (capa : Nat) (req : RpcReq)
    (pv : Json) (k m : Nat) :
    (q.length = capa → handleSendBundle q capa req pv = (HandlerOutcome.http400, q)) ∧
    (q.length ≤ capa → (handleSendBundle q capa req pv).2.length ≤ capa) ∧
    (q.length ≤ capa → ∀ i, ((epochRequeue q k m).take i).length ≤ capa) := by
  refine ⟨?_, ?_, ?_⟩
  · intro h
    rw [handleSendBundle, if_pos h]
  · intro h
    by_cases hfull : q.length = capa
    · rw [handleSendBundle, if_pos hfull]
      exact h
    · rw [handleSendBundle, if_neg hfull]
      cases extractBundleGasPrice pv with
      | panic => simpa using h
      | http400 => simpa using h
      | enqueued n =>
        simp only [List.length_append, List.length_cons, List.length_nil]
        omega
  · intro h i
    have h1 : (epochRequeue q k m).length ≤ (epochRemainder q k).length :=
      List.length_filterMap_le _ _
    have h2 : (epochRemainder q k).length ≤ q.length := by
      rw [epochRemainder, List.length_drop]
      have h3 : (sortBundles q).length = q.length :=
        (List.perm_insertionSort bundleGE q).length_eq
      omega
    calc ((epochRequeue q k m).take i).length
        ≤ (epochRequeue q k m).length := by rw [List.length_take]; omega
      _ ≤ q.length := le_trans h1 h2
      _ ≤ capa := h

/-- Witness for queueCapacity_spec: a full one-slot queue rejects a further
submission and keeps its contents. -/
theorem queueCapacity_spec_witness :
    handleSendBundle [⟨reqA, 10, 0⟩] 1 reqB (Json.obj [])
      = (HandlerOutcome.http400, [⟨reqA, 10, 0⟩]) :=
  (queueCapacity_spec [⟨reqA, 10, 0⟩] 1 reqB (Json.obj []) 0 0).1 rfl

/-- Claim C9 counterexample: with pending arrival order of prices 10, 50, 30
and one slot per epoch, the selected bundle has price 50 and the losers in
arrival (FIFO) order are the price-10 then the price-30 bundle; but the tick
re-enqueues from the sorted vector, so the queue receives the price-30 bundle
first — not the arrival order the claim states. -/
theorem epochRequeue_not_arrival_order :
    epochRequeue vW 1 3 = [⟨reqC, 30, 1⟩, ⟨reqA, 10, 1⟩] ∧
    epochRequeue vW 1 3 ≠ [⟨reqA, 10, 1⟩, ⟨reqC, 30, 1⟩] := by
  refine ⟨rfl, ?_⟩
  intro h
  have h30 : (epochRequeue vW 1 3).map (fun b => b.bundleGasPrice) = [30, 10] := rfl
  rw [h] at h30
  simp at h30

/-- Claim C9 amended: at every epoch tick, dispatch ordering is by
bundleGasPrice descending (the sorted vector is the selected prefix followed
by the remainder), and the non-selected losers are re-enqueued in that same
descending-price sorted order — not in their FIFO arrival order. -/
theorem epochOrdering_amended (v : List BundleDispatchItem) (k m : Nat) :
    List.Pairwise bundleGE (sortBundles v) ∧
    epochSelItems v k ++ epochRemainder v k = sortBundles v ∧
    List.Pairwise bundleGE (epochRequeue v k m) := by
  have hsorted : List.Pairwise bundleGE (sortBundles v) :=
    List.sorted_insertionSort bundleGE v
  refine ⟨hsorted, List.take_append_drop k (sortBundles v), ?_⟩
  have hrem : List.Pairwise bundleGE (epochRemainder v k) :=
    hsorted.sublist (List.drop_sublist k (sortBundles v))
  rw [epochRequeue, reinsertBundles, List.pairwise_filterMap]
  refine List.Pairwise.imp ?_ hrem
  intro a b hab x hx y hy
  by_cases ha : m ≤ a.retry
  · rw [if_pos ha] at hx
    simp at hx
  · rw [if_neg ha] at hx
    by_cases hb2 : m ≤ b.retry
    · rw [if_pos hb2] at hy
      simp at hy
    · rw [if_neg hb2] at hy
      simp only [Option.mem_def, Option.some_inj] at hx hy
      rw [← hx, ← hy]
      exact hab

/-- Claim C10: whitelist membership is decided by exact case-sensitive string
equality. The published snapshot is a permutation of the fetched subgraph keys
with every key verbatim (no normalization), the recovered address always has
the lowercase "0x" plus 40 hex digit shape, any key without that shape can
never equal a recovered address (so it silently authorizes nobody), and a
successful gate pass means the address itself is literally one of the fetched
keys. -/
theorem whitelistExactMatch_spec (keys : List String) (keccak : List Nat → List Nat)
    (params pubkey : List Nat) (key addr : String)
    (hlen : (keccak (pubkey.drop 1)).length = 32)
    (hbyte : ∀ b ∈ keccak (pubkey.drop 1), b < 256) :
    (publishWhitelist keys).Perm keys ∧
    isAddrForm (deriveSigData keccak params pubkey).2 = true ∧
    (isAddrForm key = false → (deriveSigData keccak params pubkey).2 ≠ key) ∧
    (whitelistGate (publishWhitelist keys) addr = some true → addr ∈ keys) := by
  have hperm : (publishWhitelist keys).Perm keys := by
    have hfk : fetchKeys keys = keys := by simp [fetchKeys]
    show ((fetchKeys keys).insertionSort stringLeProp).Perm keys
    rw [hfk]
    exact List.perm_insertionSort stringLeProp keys
  have hform : isAddrForm (deriveSigData keccak params pubkey).2 = true := by
    have heq : (deriveSigData keccak params pubkey).2
        = renderHex0x ((keccak (pubkey.drop 1)).drop 12) := rfl
    rw [heq]
    refine isAddrForm_renderHex0x _ ?_ ?_
    · rw [List.length_drop, hlen]
    · exact fun b hbm => hbyte b (List.mem_of_mem_drop hbm)
  refine ⟨hperm, hform, ?_, ?_⟩
  · intro hk heq
    rw [heq] at hform
    rw [hform] at hk
    cases hk
  · intro hg
    have hg2 := hg
    simp only [whitelistGate] at hg2
    cases hget : (publishWhitelist keys).get? (searchStrings (publishWhitelist keys) addr) with
    | none =>
      rw [hget] at hg2
      simp at hg2
    | some s =>
      rw [hget] at hg2
      simp at hg2
      have hs : s ∈ publishWhitelist keys := List.get?_mem hget
      rw [hg2] at hs
      exact hperm.mem_iff.mp hs

/-- Witness for whitelistExactMatch_spec: a key that is not in address shape
is never equal to a concretely derived address. -/
theorem whitelistExactMatch_spec_witness :
    (deriveSigData keccakW [] (List.range 65)).2 ≠ ("NotAnAddress") :=
  (whitelistExactMatch_spec [] keccakW [] (List.range 65) ("NotAnAddress") ("")
    (by simp [keccakW])
    (by intro b hb; simp [keccakW, List.mem_range] at hb; omega)).2.2.1
    (by decide)
